import Mathlib

/-!
# grpc-pokemon: the CRUD handlers of `server/server.go` over a document store

The five handlers (`CreatePokemon`, `ReadPokemon`, `UpdatePokemon`,
`DeletePokemon`, `ListPokemon`) are embedded as pure functions that take the
state of the collection and return the gRPC status together with the new state.
The collection, the driver calls and the stream are explicit values; every
outcome a driver call can report (a storage error, no document, a document that
does not decode) is an input of the model.
-/

namespace PokemonService

/-! ## Storage keys: `primitive.ObjectID` and its hexadecimal form -/

/-- A byte. -/
abbrev Byte := Fin 256

/-- The driver type `primitive.ObjectID`, a `[12]byte` array. -/
structure ObjectID where
  bytes : List Byte
  size : bytes.length = 12
deriving DecidableEq

/-- Go `var oid [12]byte; copy(oid[:], b)`: the first twelve bytes of `b`, zero
filled when `b` is shorter. -/
def ObjectID.ofBytes (b : List Byte) : ObjectID :=
  ⟨(b ++ List.replicate 12 0).take 12, by simp⟩

/-- The driver constant `primitive.NilObjectID`, the zero value of the type. -/
def NilObjectID : ObjectID := ObjectID.ofBytes []

/-- The method `ObjectID.IsZero`. -/
def ObjectID.IsZero (o : ObjectID) : Bool := decide (o = NilObjectID)

/-- Go `encoding/hex`: the constant `hextable` indexed by a nibble. -/
def hextable (n : Nat) : Char := "0123456789abcdef".data.getD n '0'

/-- Go `hex.EncodeToString`: two characters per byte, high nibble first. -/
def hexEncode : List Byte → List Char
  | [] => []
  | v :: rest => hextable (v.val >>> 4) :: hextable (v.val &&& 0x0f) :: hexEncode rest

/-- Go `hex.EncodeToString`. -/
def EncodeToString (b : List Byte) : String := ⟨hexEncode b⟩

/-- Go `hex.fromHexChar`: the value of one hexadecimal digit, either case. -/
def fromHexChar (c : Char) : Option Nat :=
  if '0' ≤ c ∧ c ≤ '9' then some (c.toNat - '0'.toNat)
  else if 'a' ≤ c ∧ c ≤ 'f' then some (c.toNat - 'a'.toNat + 10)
  else if 'A' ≤ c ∧ c ≤ 'F' then some (c.toNat - 'A'.toNat + 10)
  else none

/-- Go `hex.Decode` on the characters of the source: pairs of digits to bytes;
`none` stands for `InvalidByteError` and for `ErrLength` (odd length). A
character outside ASCII is no digit here, as none of its bytes is in Go. -/
def hexDecode : List Char → Option (List Byte)
  | [] => some []
  | [_] => none
  | a :: b :: rest =>
    match fromHexChar a, fromHexChar b with
    | some x, some y =>
      match hexDecode rest with
      | some bs => some (Fin.ofNat (((x <<< 4) ||| y) % 256) :: bs)
      | none => none
    | _, _ => none

/-- Go `hex.DecodeString`. -/
def DecodeString (s : String) : Option (List Byte) := hexDecode s.data

/-- The method `ObjectID.Hex`. -/
def ObjectID.Hex (o : ObjectID) : String := EncodeToString o.bytes

/-- The driver function `primitive.ObjectIDFromHex`: the string must be 24 bytes
long (Go `len(s)`) and decode as hexadecimal; `none` is the returned error. -/
def ObjectIDFromHex (s : String) : Option ObjectID :=
  if s.utf8ByteSize ≠ 24 then none
  else
    match DecodeString s with
    | none => none
    | some b => some (ObjectID.ofBytes b)

/-! ## Messages of the service contract -/

/-- gRPC status codes the handlers return with an error (`codes.*`); the message
text of the status is not modelled. -/
inductive Code where
  | InvalidArgument
  | NotFound
  | Internal
deriving DecidableEq, Repr

/-- Modelled from the spec: the generated message `pokemonpc.Pokemon` (package
`pokemon`, not among the sources): identifier, external code, name, power and
description, all strings. -/
structure Pokemon where
  Id : String
  Pid : String
  Name : String
  Power : String
  Description : String
deriving DecidableEq, Repr

/-- Generated getter `(*Pokemon).GetId`: the empty string on a nil message. -/
def GetId (p : Option Pokemon) : String := (p.map Pokemon.Id).getD ""

/-- Generated getter `(*Pokemon).GetPid`: the empty string on a nil message. -/
def GetPid (p : Option Pokemon) : String := (p.map Pokemon.Pid).getD ""

/-- Generated getter `(*Pokemon).GetName`: the empty string on a nil message. -/
def GetName (p : Option Pokemon) : String := (p.map Pokemon.Name).getD ""

/-- Generated getter `(*Pokemon).GetPower`: the empty string on a nil message. -/
def GetPower (p : Option Pokemon) : String := (p.map Pokemon.Power).getD ""

/-- Generated getter `(*Pokemon).GetDescription`: the empty string on a nil
message. -/
def GetDescription (p : Option Pokemon) : String := (p.map Pokemon.Description).getD ""

/-- Modelled from the spec: the generated message `pokemonpc.CreatePokemonRequest`;
the message pointer may be nil. -/
structure CreatePokemonRequest where
  Pokemon : Option Pokemon
deriving DecidableEq, Repr

/-- Modelled from the spec: the generated message `pokemonpc.CreatePokemonResponse`. -/
structure CreatePokemonResponse where
  Pokemon : Pokemon
deriving DecidableEq, Repr

/-- Modelled from the spec: the generated message `pokemonpc.ReadPokemonRequest`;
its field `Pid` carries the identifier to look up. -/
structure ReadPokemonRequest where
  Pid : String
deriving DecidableEq, Repr

/-- Modelled from the spec: the generated message `pokemonpc.ReadPokemonResponse`. -/
structure ReadPokemonResponse where
  Pokemon : Pokemon
deriving DecidableEq, Repr

/-- Modelled from the spec: the generated message `pokemonpc.UpdatePokemonRequest`. -/
structure UpdatePokemonRequest where
  Pokemon : Option Pokemon
deriving DecidableEq, Repr

/-- Modelled from the spec: the generated message `pokemonpc.UpdatePokemonResponse`. -/
structure UpdatePokemonResponse where
  Pokemon : Pokemon
deriving DecidableEq, Repr

/-- Modelled from the spec: the generated message `pokemonpc.DeletePokemonRequest`;
its field `Pid` carries the identifier to delete. -/
structure DeletePokemonRequest where
  Pid : String
deriving DecidableEq, Repr

/-- Modelled from the spec: the generated message `pokemonpc.DeletePokemonResponse`. -/
structure DeletePokemonResponse where
  Pid : String
deriving DecidableEq, Repr

/-- Modelled from the spec: the generated message `pokemonpc.ListPokemonRequest`. -/
structure ListPokemonRequest where
deriving DecidableEq, Repr

/-- Modelled from the spec: the generated message `pokemonpc.ListPokemonResponse`. -/
structure ListPokemonResponse where
  Pokemon : Pokemon
deriving DecidableEq, Repr

/-! ## The document store -/

/-- The struct `pokemonItem` of `server.go`. -/
structure pokemonItem where
  ID : ObjectID
  Pid : String
  Name : String
  Power : String
  Description : String
deriving DecidableEq

/-- The zero value `pokemonItem{}`. -/
def pokemonItem.zero : pokemonItem := ⟨NilObjectID, "", "", "", ""⟩

/-- The BSON value stored under the key `_id`: an ObjectID, the type this
service writes and the only one the filter `bson.M{"_id": oid}` matches, or a
32-bit integer, a key of a foreign writer, which the driver refuses to decode
into a `primitive.ObjectID`. Keys of the types the driver converts on decoding
(strings, null) are outside the model. -/
inductive BsonID where
  | objectID (o : ObjectID)
  | int32 (n : Int)
deriving DecidableEq

/-- The BSON value stored under one of the keys `pid`, `name`, `power`,
`description`: a string, the type this service writes, or a 32-bit integer,
which the driver refuses to decode into a Go `string`. Values of the types the
driver converts on decoding (ObjectID, symbol, binary, null) are outside the
model. -/
inductive BsonField where
  | string (s : String)
  | int32 (n : Int)
deriving DecidableEq

/-- A document of the collection `pokemon`: the values under the keys `_id`,
`pid`, `name`, `power` and `description`. Documents written by this service
hold an ObjectID and four strings; the collection may hold others. -/
structure Document where
  id : BsonID
  pid : BsonField
  name : BsonField
  power : BsonField
  description : BsonField
deriving DecidableEq

/-- Errors a driver call reports. -/
inductive DriverError where
  | ErrNoDocuments
  | DuplicateKey
  | ImmutableField
  | DecodeError
  | NilCurrent
  | Unavailable
deriving DecidableEq, Repr

/-- The `_id` that the struct tag `bson:"_id,omitempty"` encodes: none for the
zero ObjectID. -/
def marshalID (data : pokemonItem) : Option BsonID :=
  if data.ID.IsZero then none else some (.objectID data.ID)

/-- The BSON encoding of a `pokemonItem` stored under the key `id`. -/
def marshal (id : BsonID) (data : pokemonItem) : Document :=
  ⟨id, .string data.Pid, .string data.Name, .string data.Power, .string data.Description⟩

/-- The BSON decoding of a document into a `pokemonItem` (the driver's `Decode`
on the documents of the model): an ObjectID key and four strings give the item,
a 32-bit integer under any of the five keys is the driver's error "cannot
decode 32-bit integer into" an ObjectID or a string type. -/
def unmarshal (d : Document) : Except DriverError pokemonItem :=
  match d.id, d.pid, d.name, d.power, d.description with
  | .objectID o, .string p, .string n, .string w, .string ds => .ok ⟨o, p, n, w, ds⟩
  | _, _, _, _, _ => .error .DecodeError

/-- The state of the global `collection`: its documents in storage order, no two
under the same `_id` (the unique index every collection has on `_id`). -/
structure Collection where
  docs : List Document
  unique : (docs.map Document.id).Nodup

/-- The filter `bson.M{"_id": oid}` as a test on documents. -/
def matchesID (oid : ObjectID) (d : Document) : Bool := decide (d.id = .objectID oid)

/-- What the deployment does to the driver calls of one request: the key
`primitive.NewObjectID()` hands out, and the error, if any, each call reports
for a reason outside the collection (server or network failure). `cursorErr`
is a scan that breaks after delivering the given number of documents. -/
structure Env where
  NewObjectID : ObjectID
  insertErr : Option DriverError
  findOneErr : Option DriverError
  replaceErr : Option DriverError
  deleteErr : Option DriverError
  findErr : Option DriverError
  cursorErr : Option (Nat × DriverError)

/-- The deployment in which no driver call fails for an outside reason. -/
def Env.healthy (newID : ObjectID) : Env := ⟨newID, none, none, none, none, none, none⟩

/-- The driver type `mongo.InsertOneResult`. -/
structure InsertOneResult where
  InsertedID : BsonID

/-- The driver call `collection.InsertOne(ctx, data)`: the document gets the
encoded `_id`, or a fresh `primitive.NewObjectID()` when the encoding has none;
a key already in the collection is rejected. -/
def Collection.InsertOne (c : Collection) (fault : Option DriverError) (newID : ObjectID)
    (data : pokemonItem) : Except DriverError InsertOneResult × Collection :=
  match fault with
  | some e => (.error e, c)
  | none =>
    let id := (marshalID data).getD (.objectID newID)
    if h : id ∈ c.docs.map Document.id then (.error .DuplicateKey, c)
    else (.ok ⟨id⟩, ⟨c.docs ++ [marshal id data], by
      have hu := c.unique
      simp only [List.map_append, List.map_cons, List.map_nil]
      rw [List.nodup_append]
      refine ⟨hu, List.nodup_singleton _, ?_⟩
      intro a ha hb
      rw [List.mem_singleton] at hb
      subst hb
      exact h ha⟩)

/-- The driver type `mongo.SingleResult`: an error or the raw document. -/
inductive SingleResult where
  | err (e : DriverError)
  | rdr (d : Document)

/-- The driver call `collection.FindOne(ctx, bson.M{"_id": oid})`. -/
def Collection.FindOne (c : Collection) (fault : Option DriverError) (oid : ObjectID) :
    SingleResult :=
  match fault with
  | some e => .err e
  | none =>
    match c.docs.find? (matchesID oid) with
    | none => .err .ErrNoDocuments
    | some d => .rdr d

/-- The driver method `(*SingleResult).Decode` into a `*pokemonItem`. -/
def SingleResult.Decode : SingleResult → Except DriverError pokemonItem
  | .err e => .error e
  | .rdr d => unmarshal d

/-- The driver type `mongo.UpdateResult`. -/
structure UpdateResult where
  MatchedCount : Nat

/-- The driver call `collection.ReplaceOne(ctx, bson.M{"_id": oid}, data)`: the
document under the key (there is at most one, `_id` being unique) is replaced by
the encoding of `data` and keeps its `_id`; an encoding with another `_id` is
rejected; no document under the key is no error and changes nothing. -/
def Collection.ReplaceOne (c : Collection) (fault : Option DriverError) (oid : ObjectID)
    (data : pokemonItem) : Except DriverError UpdateResult × Collection :=
  match fault with
  | some e => (.error e, c)
  | none =>
    if c.docs.any (matchesID oid) then
      if (marshalID data).getD (.objectID oid) = .objectID oid then
        (.ok ⟨1⟩,
          ⟨c.docs.map fun d => if matchesID oid d then marshal (.objectID oid) data else d, by
            have h : (c.docs.map fun d =>
                if matchesID oid d then marshal (.objectID oid) data else d).map Document.id
                = c.docs.map Document.id := by
              rw [List.map_map]
              apply List.map_congr_left
              intro d _
              simp only [Function.comp]
              split <;> simp_all [matchesID, marshal]
            rw [h]
            exact c.unique⟩)
      else (.error .ImmutableField, c)
    else (.ok ⟨0⟩, c)

/-- The driver type `mongo.DeleteResult`. -/
structure DeleteResult where
  DeletedCount : Nat

/-- The driver call `collection.DeleteOne(ctx, bson.M{"_id": oid})`: removes the
first document under the key and counts it. -/
def Collection.DeleteOne (c : Collection) (fault : Option DriverError) (oid : ObjectID) :
    Except DriverError DeleteResult × Collection :=
  match fault with
  | some e => (.error e, c)
  | none =>
    (.ok ⟨if c.docs.any (matchesID oid) then 1 else 0⟩,
      ⟨c.docs.eraseP (matchesID oid),
        List.Nodup.sublist (List.Sublist.map _ (List.eraseP_sublist c.docs)) c.unique⟩)

/-- The driver type `mongo.Cursor`: the documents it has still to deliver, the
current one, the error its iteration ends with, and whether it is closed. -/
structure Cursor where
  batch : List Document
  Current : Option Document
  err : Option DriverError
  closed : Bool
deriving DecidableEq

/-- The driver call `collection.Find(ctx, primitive.D{{}})`: a cursor over all
documents in storage order; a scan that breaks delivers a prefix and ends in
its error. -/
def Collection.Find (c : Collection) (fault : Option DriverError)
    (cursorErr : Option (Nat × DriverError)) : Except DriverError Cursor :=
  match fault with
  | some e => .error e
  | none =>
    match cursorErr with
    | none => .ok ⟨c.docs, none, none, false⟩
    | some (n, e) => .ok ⟨c.docs.take n, none, some e, false⟩

/-- The driver method `(*Cursor).Next`: moves to the next document, if any. -/
def Cursor.Next (cur : Cursor) : Bool × Cursor :=
  match cur.batch with
  | [] => (false, cur)
  | d :: rest => (true, { cur with batch := rest, Current := some d })

/-- The driver method `(*Cursor).Decode` into a `*pokemonItem`. -/
def Cursor.Decode (cur : Cursor) : Except DriverError pokemonItem :=
  match cur.Current with
  | none => .error .NilCurrent
  | some d => unmarshal d

/-- The driver method `(*Cursor).Err`. -/
def Cursor.Err (cur : Cursor) : Option DriverError := cur.err

/-- The driver method `(*Cursor).Close`. -/
def Cursor.Close (cur : Cursor) : Cursor := { cur with closed := true }

/-- Modelled from the spec: the generated stream
`pokemonpc.PokemonService_ListPokemonServer`: the messages handed to `Send` in
call order, those that reached the caller, and which calls of `Send` (counted
from 0) report an error. -/
structure ListPokemonServer where
  sent : List ListPokemonResponse
  delivered : List ListPokemonResponse
  fails : Nat → Bool

/-- A fresh stream with the given pattern of send failures. -/
def ListPokemonServer.new (fails : Nat → Bool) : ListPokemonServer := ⟨[], [], fails⟩

/-- The stream method `Send`: true stands for a returned error. -/
def ListPokemonServer.Send (s : ListPokemonServer) (m : ListPokemonResponse) :
    Bool × ListPokemonServer :=
  if s.fails s.sent.length then (true, { s with sent := s.sent ++ [m] })
  else (false, { s with sent := s.sent ++ [m], delivered := s.delivered ++ [m] })

/-! ## The handlers of `server.go` -/

/-- The function `getPokemonData`. -/
def getPokemonData (data : pokemonItem) : Pokemon :=
  { Id := data.ID.Hex
    Pid := data.Pid
    Name := data.Name
    Power := data.Power
    Description := data.Description }

/-- The handler `CreatePokemon`. -/
def CreatePokemon (c : Collection) (env : Env) (req : CreatePokemonRequest) :
    Except Code CreatePokemonResponse × Collection :=
  let pokemon := req.Pokemon
  let data : pokemonItem :=
    { pokemonItem.zero with
      Pid := GetPid pokemon
      Name := GetName pokemon
      Power := GetPower pokemon
      Description := GetDescription pokemon }
  match c.InsertOne env.insertErr env.NewObjectID data with
  | (.error _, c) => (.error .Internal, c)
  | (.ok res, c) =>
    match res.InsertedID with
    | .objectID oid =>
      (.ok ⟨{ Id := oid.Hex
              Pid := GetPid pokemon
              Name := GetName pokemon
              Power := GetPower pokemon
              Description := GetDescription pokemon }⟩, c)
    | _ => (.error .Internal, c)

/-- The handler `ReadPokemon`; it makes no call that writes, the collection
stays as it is. -/
def ReadPokemon (c : Collection) (env : Env) (req : ReadPokemonRequest) :
    Except Code ReadPokemonResponse × Collection :=
  let pokemonID := req.Pid
  match ObjectIDFromHex pokemonID with
  | none => (.error .InvalidArgument, c)
  | some oid =>
    let res := c.FindOne env.findOneErr oid
    match res.Decode with
    | .error _ => (.error .NotFound, c)
    | .ok data => (.ok ⟨getPokemonData data⟩, c)

/-- The handler `UpdatePokemon`. -/
def UpdatePokemon (c : Collection) (env : Env) (req : UpdatePokemonRequest) :
    Except Code UpdatePokemonResponse × Collection :=
  let pokemon := req.Pokemon
  match ObjectIDFromHex (GetId pokemon) with
  | none => (.error .InvalidArgument, c)
  | some oid =>
    let res := c.FindOne env.findOneErr oid
    match res.Decode with
    | .error _ => (.error .NotFound, c)
    | .ok data =>
      let data : pokemonItem :=
        { data with
          Pid := GetPid pokemon
          Name := GetName pokemon
          Power := GetPower pokemon
          Description := GetDescription pokemon }
      match c.ReplaceOne env.replaceErr oid data with
      | (.error _, c) => (.error .Internal, c)
      | (.ok _, c) => (.ok ⟨getPokemonData data⟩, c)

/-- The handler `DeletePokemon`. -/
def DeletePokemon (c : Collection) (env : Env) (req : DeletePokemonRequest) :
    Except Code DeletePokemonResponse × Collection :=
  match ObjectIDFromHex req.Pid with
  | none => (.error .InvalidArgument, c)
  | some oid =>
    match c.DeleteOne env.deleteErr oid with
    | (.error _, c) => (.error .Internal, c)
    | (.ok res, c) =>
      if res.DeletedCount = 0 then (.error .NotFound, c)
      else (.ok ⟨req.Pid⟩, c)

/-- The `for cur.Next(...)` loop of `ListPokemon`: a status when the body
returns, none when `Next` ends the loop; with it the cursor and the stream as
the loop leaves them. The result of `stream.Send` is dropped. -/
def listLoop (cur : Cursor) (stream : ListPokemonServer) :
    Option Code × Cursor × ListPokemonServer :=
  match h : cur.Next with
  | (false, cur) => (none, cur, stream)
  | (true, cur1) =>
    match cur1.Decode with
    | .error _ => (some .Internal, cur1, stream)
    | .ok data => listLoop cur1 (stream.Send ⟨getPokemonData data⟩).2
termination_by cur.batch.length
decreasing_by
  unfold Cursor.Next at h
  split at h
  · simp at h
  · rename_i d rest hb
    simp only [Prod.mk.injEq, true_and] at h
    subst h
    simp [hb]

/-- What a call of `ListPokemon` leaves behind: the returned status (none is the
nil error), the stream, and the cursor if one was opened. -/
structure ListOutcome where
  err : Option Code
  stream : ListPokemonServer
  cur : Option Cursor

/-- The handler `ListPokemon`; the deferred `cur.Close` runs on every return
after the cursor was opened. -/
def ListPokemon (c : Collection) (env : Env) (_req : ListPokemonRequest)
    (stream : ListPokemonServer) : ListOutcome :=
  match c.Find env.findErr env.cursorErr with
  | .error _ => ⟨some .Internal, stream, none⟩
  | .ok cur =>
    match listLoop cur stream with
    | (some code, cur, stream) => ⟨some code, stream, some cur.Close⟩
    | (none, cur, stream) =>
      match cur.Err with
      | some _ => ⟨some .Internal, stream, some cur.Close⟩
      | none => ⟨none, stream, some cur.Close⟩

/-! ## Predicates and sample values used by the statements -/

/-- A hexadecimal digit of either case. -/
def hexDigit (c : Char) : Prop :=
  ('0' ≤ c ∧ c ≤ '9') ∨ ('a' ≤ c ∧ c ≤ 'f') ∨ ('A' ≤ c ∧ c ≤ 'F')

instance hexDigit.decidable (c : Char) : Decidable (hexDigit c) := by
  unfold hexDigit
  exact inferInstance

/-- A document decodes and `getPokemonData` turns it into the list message `m`. -/
def sentFor (d : Document) (m : ListPokemonResponse) : Prop :=
  ∃ data, unmarshal d = .ok data ∧ m = ⟨getPokemonData data⟩

/-- The list message `m` carries the stored key of the document `d`, in
hexadecimal, and its four stored strings. -/
def carries (d : Document) (m : ListPokemonResponse) : Prop :=
  ∃ o : ObjectID, d.id = .objectID o ∧ m.Pokemon.Id = o.Hex ∧
    d.pid = .string m.Pokemon.Pid ∧ d.name = .string m.Pokemon.Name ∧
    d.power = .string m.Pokemon.Power ∧ d.description = .string m.Pokemon.Description

/-- A sample storage key. -/
def keyA : ObjectID := ObjectID.ofBytes [0x5f, 1, 2, 3, 4, 5, 6, 7, 8, 9, 10, 0xab]

/-- A second sample storage key. -/
def keyB : ObjectID := ObjectID.ofBytes [0x5f, 1, 2, 3, 4, 5, 6, 7, 8, 9, 10, 0xac]

/-- A third sample storage key. -/
def keyC : ObjectID := ObjectID.ofBytes [0x5f, 1, 2, 3, 4, 5, 6, 7, 8, 9, 10, 0xad]

/-- The record of the client scenario. -/
def pikachu : Pokemon := ⟨"", "Poke01", "Pikachu", "Fire", "Fluffy"⟩

/-- The record of the client scenario as stored under `keyA`. -/
def pikachuDoc : Document :=
  ⟨.objectID keyA, .string "Poke01", .string "Pikachu", .string "Fire", .string "Fluffy"⟩

/-- A document under `keyB` whose `pid` is a number, not a string. -/
def brokenDoc : Document :=
  ⟨.objectID keyB, .int32 7, .string "Eevee", .string "Adapt", .string "Brown"⟩

/-- A well-formed document under `keyC`. -/
def charmanderDoc : Document :=
  ⟨.objectID keyC, .string "Poke04", .string "Charmander", .string "Blaze", .string "Orange"⟩

/-- The empty collection. -/
def emptyStore : Collection := ⟨[], List.nodup_nil⟩

/-- A collection holding the scenario record. -/
def pikachuStore : Collection := ⟨[pikachuDoc], List.nodup_singleton _⟩

/-- A collection holding the scenario record, then the document that does not
decode, then a well-formed one. -/
def mixedStore : Collection := ⟨[pikachuDoc, brokenDoc, charmanderDoc], by decide⟩

/-- A collection holding two well-formed documents. -/
def pairStore : Collection := ⟨[pikachuDoc, charmanderDoc], by decide⟩

/-- A deployment whose every driver call reports the server unavailable. -/
def Env.down (newID : ObjectID) : Env :=
  ⟨newID, some .Unavailable, some .Unavailable, some .Unavailable, some .Unavailable,
    some .Unavailable, none⟩

/-! ## Hexadecimal keys -/


set_option maxRecDepth 1000000 in
theorem byte_roundtrip : ∀ v : Byte,
    fromHexChar (hextable (v.val >>> 4)) = some (v.val >>> 4) ∧
    fromHexChar (hextable (v.val &&& 0x0f)) = some (v.val &&& 0x0f) ∧
    (Fin.ofNat ((((v.val >>> 4) <<< 4) ||| (v.val &&& 0x0f)) % 256) : Byte) = v := by
  decide

theorem hexDecode_hexEncode (bs : List Byte) : hexDecode (hexEncode bs) = some bs := by
  induction bs with
  | nil => rfl
  | cons v rest ih =>
    obtain ⟨h1, h2, h3⟩ := byte_roundtrip v
    simp only [hexEncode, hexDecode, h1, h2, ih, h3]

theorem fromHexChar_isSome (c : Char) : (fromHexChar c).isSome = true ↔ hexDigit c := by
  unfold fromHexChar hexDigit
  split_ifs with h1 h2 h3 <;> simp_all

theorem hexDigit_utf8Size (c : Char) (h : hexDigit c) : c.utf8Size = 1 := by
  have hle : c.val ≤ UInt32.ofNatCore 0x7F (by decide) := by
    rcases h with h | h | h <;> exact UInt32.le_trans (Char.le_def.mp h.2) (by decide)
  simp only [Char.utf8Size]
  rw [if_pos hle]

theorem utf8ByteSize_go_of_hex (l : List Char) (h : ∀ c ∈ l, hexDigit c) :
    String.utf8ByteSize.go l = l.length := by
  induction l with
  | nil => rfl
  | cons c cs ih =>
    have h1 := hexDigit_utf8Size c (h c (List.mem_cons_self _ _))
    have h2 := ih fun x hx => h x (List.mem_cons_of_mem _ hx)
    simp only [String.utf8ByteSize.go, List.length_cons, h1, h2]

theorem utf8ByteSize_of_hex (s : String) (h : ∀ c ∈ s.data, hexDigit c) :
    s.utf8ByteSize = s.length := by
  cases s with
  | mk l => exact utf8ByteSize_go_of_hex l h

theorem hextable_hexDigit : ∀ n : Fin 16, hexDigit (hextable n.val) := by decide

theorem hexEncode_hexDigit (bs : List Byte) : ∀ c ∈ hexEncode bs, hexDigit c := by
  induction bs with
  | nil => intro c hc; simp [hexEncode] at hc
  | cons v rest ih =>
    intro c hc
    simp only [hexEncode, List.mem_cons] at hc
    rcases hc with hc | hc | hc
    · subst hc
      have hlt : v.val >>> 4 < 16 := by
        rw [Nat.shiftRight_eq_div_pow]; omega
      exact hextable_hexDigit ⟨_, hlt⟩
    · subst hc
      have hlt : v.val &&& 0x0f < 16 := Nat.and_lt_two_pow _ (n := 4) (by decide)
      exact hextable_hexDigit ⟨_, hlt⟩
    · exact ih c hc

theorem hexEncode_length (bs : List Byte) : (hexEncode bs).length = 2 * bs.length := by
  induction bs with
  | nil => rfl
  | cons v rest ih => simp only [hexEncode, List.length_cons, ih]; omega

theorem hexDecode_hexDigit (l : List Char) :
    ∀ bs, hexDecode l = some bs → (∀ c ∈ l, hexDigit c) ∧ l.length = 2 * bs.length := by
  induction l using hexDecode.induct with
  | case1 => intro bs h; simp [hexDecode] at h; subst h; simp
  | case2 c => intro bs h; simp [hexDecode] at h
  | case3 a b rest x y hy hx bs1 hrest ih =>
    intro bs h
    simp only [hexDecode, hx, hy, hrest, Option.some.injEq] at h
    obtain ⟨hd, hl⟩ := ih bs1 hrest
    subst h
    refine ⟨?_, by simp only [List.length_cons, hl]; omega⟩
    intro c hc
    simp only [List.mem_cons] at hc
    rcases hc with hc | hc | hc
    · subst hc; exact (fromHexChar_isSome c).mp (by rw [hx]; rfl)
    · subst hc; exact (fromHexChar_isSome c).mp (by rw [hy]; rfl)
    · exact hd c hc
  | case4 a b rest x y hy hx hrest _ =>
    intro bs h
    simp [hexDecode, hx, hy, hrest] at h
  | case5 a b rest hno =>
    intro bs h
    cases hfa : fromHexChar a with
    | none => simp [hexDecode, hfa] at h
    | some x =>
      cases hfb : fromHexChar b with
      | none => simp [hexDecode, hfa, hfb] at h
      | some y => exact (hno x y hfa hfb).elim

theorem hexDecode_of_hexDigit (n : Nat) :
    ∀ l : List Char, (∀ c ∈ l, hexDigit c) → l.length = 2 * n →
      ∃ bs, hexDecode l = some bs := by
  induction n with
  | zero =>
    intro l _ hl
    have : l = [] := List.length_eq_zero.mp (by omega)
    subst this
    exact ⟨[], rfl⟩
  | succ n ih =>
    intro l hd hl
    match l, hd, hl with
    | [], _, hl => simp at hl
    | [_], _, hl => simp at hl; omega
    | a :: b :: rest, hd, hl =>
      have ha := (fromHexChar_isSome a).mpr (hd a (by simp))
      have hb := (fromHexChar_isSome b).mpr (hd b (by simp))
      obtain ⟨x, hx⟩ := Option.isSome_iff_exists.mp ha
      obtain ⟨y, hy⟩ := Option.isSome_iff_exists.mp hb
      obtain ⟨bs, hbs⟩ := ih rest (fun c hc => hd c (by simp [hc]))
        (by simp only [List.length_cons] at hl; omega)
      exact ⟨Fin.ofNat (((x <<< 4) ||| y) % 256) :: bs, by simp only [hexDecode, hx, hy, hbs]⟩

/-- The storage-key parser accepts exactly the strings of 24 hexadecimal
digits. -/
theorem ObjectIDFromHex_isSome_iff (s : String) :
    (ObjectIDFromHex s).isSome = true ↔ s.length = 24 ∧ ∀ c ∈ s.data, hexDigit c := by
  constructor
  · intro h
    unfold ObjectIDFromHex at h
    split_ifs at h with hsz
    · simp at h
    · cases hd : DecodeString s with
      | none => simp [hd] at h
      | some bs =>
        obtain ⟨hhex, _⟩ := hexDecode_hexDigit s.data bs hd
        refine ⟨?_, hhex⟩
        rw [← utf8ByteSize_of_hex s hhex]
        simpa using hsz
  · rintro ⟨hlen, hhex⟩
    have hsz : s.utf8ByteSize = 24 := by rw [utf8ByteSize_of_hex s hhex, hlen]
    obtain ⟨bs, hbs⟩ := hexDecode_of_hexDigit 12 s.data hhex (by
      have : s.data.length = s.length := rfl
      omega)
    simp [ObjectIDFromHex, hsz, DecodeString, hbs]

theorem ofBytes_bytes (o : ObjectID) : ObjectID.ofBytes o.bytes = o := by
  cases o with
  | mk bytes size =>
    simp only [ObjectID.ofBytes, ObjectID.mk.injEq]
    rw [List.take_append_of_le_length (by omega), List.take_of_length_le (by omega)]

/-- Parsing the hexadecimal form of a key gives the key back. -/
theorem ObjectIDFromHex_Hex (o : ObjectID) : ObjectIDFromHex o.Hex = some o := by
  have hsz : o.Hex.utf8ByteSize = 24 := by
    show (String.mk (hexEncode o.bytes)).utf8ByteSize = 24
    rw [utf8ByteSize_of_hex _ (hexEncode_hexDigit o.bytes)]
    show (hexEncode o.bytes).length = 24
    rw [hexEncode_length, o.size]
  unfold ObjectIDFromHex
  rw [if_neg (by simp [hsz])]
  show (match hexDecode (hexEncode o.bytes) with
    | none => none
    | some b => some (ObjectID.ofBytes b)) = some o
  rw [hexDecode_hexEncode]
  simp only [ofBytes_bytes]


theorem Collection.eq_of_docs {c1 c2 : Collection} (h : c1.docs = c2.docs) : c1 = c2 := by
  cases c1; cases c2; cases h; rfl

theorem matchesID_iff (oid : ObjectID) (d : Document) :
    matchesID oid d = true ↔ d.id = .objectID oid := by
  simp [matchesID]

theorem find?_none_of_not_mem (oid : ObjectID) (l : List Document)
    (h : BsonID.objectID oid ∉ l.map Document.id) : l.find? (matchesID oid) = none := by
  rw [List.find?_eq_none]
  intro d hd hm
  exact h (List.mem_map.mpr ⟨d, hd, (matchesID_iff oid d).mp (by simpa using hm)⟩)

theorem any_false_of_find?_none (oid : ObjectID) (l : List Document)
    (h : l.find? (matchesID oid) = none) : l.any (matchesID oid) = false := by
  rw [List.find?_eq_none] at h
  rw [List.any_eq_false]
  exact h

theorem eraseP_of_find?_none (oid : ObjectID) (l : List Document)
    (h : l.find? (matchesID oid) = none) : l.eraseP (matchesID oid) = l := by
  rw [List.find?_eq_none] at h
  exact List.eraseP_of_forall_not h

theorem unmarshal_marshal (o : ObjectID) (data : pokemonItem) :
    unmarshal (marshal (.objectID o) data) = .ok { data with ID := o } := rfl

theorem unmarshal_id {d : Document} {data : pokemonItem} (h : unmarshal d = .ok data) :
    d.id = .objectID data.ID := by
  unfold unmarshal at h
  split at h
  · rename_i o p n w ds h1 h2 h3 h4 h5
    simp only [Except.ok.injEq] at h
    subst h
    exact h1
  · simp at h

/-- After the first document under a key is erased, none is left under it. -/
theorem find?_eraseP_none (oid : ObjectID) (l : List Document)
    (hu : (l.map Document.id).Nodup) :
    (l.eraseP (matchesID oid)).find? (matchesID oid) = none := by
  induction l with
  | nil => rfl
  | cons d rest ih =>
    simp only [List.map_cons, List.nodup_cons] at hu
    by_cases hm : matchesID oid d = true
    · rw [List.eraseP_cons_of_pos hm]
      apply find?_none_of_not_mem
      rw [← (matchesID_iff oid d).mp hm]
      exact hu.1
    · rw [List.eraseP_cons_of_neg hm, List.find?_cons_of_neg _ hm]
      exact ih hu.2

/-- CreatePokemon whose insert call reports an error: Internal, nothing stored. -/
theorem CreatePokemon_fault (c : Collection) (env : Env) (req : CreatePokemonRequest)
    (e : DriverError) (h : env.insertErr = some e) :
    CreatePokemon c env req = (.error .Internal, c) := by
  simp only [CreatePokemon, Collection.InsertOne, h]

/-- CreatePokemon when the generated key is already in the collection: the
insert is rejected, Internal, nothing stored. -/
theorem CreatePokemon_duplicate (c : Collection) (env : Env) (req : CreatePokemonRequest)
    (h : env.insertErr = none)
    (hdup : BsonID.objectID env.NewObjectID ∈ c.docs.map Document.id) :
    CreatePokemon c env req = (.error .Internal, c) := by
  have hz : NilObjectID.IsZero = true := by decide
  simp only [CreatePokemon, Collection.InsertOne, h, marshalID, pokemonItem.zero, hz, if_true,
    Option.getD_none, hdup, dite_true]

/-- CreatePokemon when the insert goes through: the record returned and the
document appended. -/
theorem CreatePokemon_fresh (c : Collection) (env : Env) (req : CreatePokemonRequest)
    (h : env.insertErr = none)
    (hnew : BsonID.objectID env.NewObjectID ∉ c.docs.map Document.id) :
    ∃ c1 : Collection,
      CreatePokemon c env req =
        (.ok ⟨⟨env.NewObjectID.Hex, GetPid req.Pokemon, GetName req.Pokemon,
          GetPower req.Pokemon, GetDescription req.Pokemon⟩⟩, c1) ∧
      c1.docs = c.docs ++ [marshal (.objectID env.NewObjectID)
        ⟨NilObjectID, GetPid req.Pokemon, GetName req.Pokemon, GetPower req.Pokemon,
          GetDescription req.Pokemon⟩] := by
  have hz : NilObjectID.IsZero = true := by decide
  simp only [CreatePokemon, Collection.InsertOne, h, marshalID, pokemonItem.zero, hz, if_true,
    Option.getD_none, hnew, dite_false]
  exact ⟨_, rfl, rfl⟩

/-- CreatePokemon returns a record only in the third of the three cases. -/
theorem CreatePokemon_ok_inv (c c1 : Collection) (env : Env) (req : CreatePokemonRequest)
    (created : Pokemon) (hc : CreatePokemon c env req = (.ok ⟨created⟩, c1)) :
    env.insertErr = none ∧ BsonID.objectID env.NewObjectID ∉ c.docs.map Document.id ∧
    created = ⟨env.NewObjectID.Hex, GetPid req.Pokemon, GetName req.Pokemon,
          GetPower req.Pokemon, GetDescription req.Pokemon⟩ ∧
    c1.docs = c.docs ++ [marshal (.objectID env.NewObjectID)
        ⟨NilObjectID, GetPid req.Pokemon, GetName req.Pokemon, GetPower req.Pokemon,
          GetDescription req.Pokemon⟩] := by
  cases hi : env.insertErr with
  | some e =>
    rw [CreatePokemon_fault c env req e hi] at hc
    simp at hc
  | none =>
    by_cases hdup : BsonID.objectID env.NewObjectID ∈ c.docs.map Document.id
    · rw [CreatePokemon_duplicate c env req hi hdup] at hc
      simp at hc
    · obtain ⟨c2, h1, h2⟩ := CreatePokemon_fresh c env req hi hdup
      rw [h1] at hc
      simp only [Prod.mk.injEq, Except.ok.injEq, CreatePokemonResponse.mk.injEq] at hc
      obtain ⟨hc1, hc2⟩ := hc
      subst hc2
      exact ⟨rfl, hdup, hc1.symm, h2⟩

/-- ReadPokemon on a parsable identifier whose lookup reports no error and finds
a document that decodes. -/
theorem ReadPokemon_found (c : Collection) (env : Env) (id : String) (oid : ObjectID)
    (d : Document) (data : pokemonItem)
    (hp : ObjectIDFromHex id = some oid) (hf : env.findOneErr = none)
    (hd : c.docs.find? (matchesID oid) = some d) (hu : unmarshal d = .ok data) :
    ReadPokemon c env ⟨id⟩ = (.ok ⟨getPokemonData data⟩, c) := by
  simp only [ReadPokemon, hp, Collection.FindOne, hf, hd, SingleResult.Decode, hu]

/-- ReadPokemon on a parsable identifier under which the collection holds
nothing: NotFound whatever the lookup reports. -/
theorem ReadPokemon_absent (c : Collection) (env : Env) (id : String) (oid : ObjectID)
    (hp : ObjectIDFromHex id = some oid) (hd : c.docs.find? (matchesID oid) = none) :
    ReadPokemon c env ⟨id⟩ = (.error .NotFound, c) := by
  cases hf : env.findOneErr with
  | some e => simp only [ReadPokemon, hp, Collection.FindOne, hf, SingleResult.Decode]
  | none => simp only [ReadPokemon, hp, Collection.FindOne, hf, hd, SingleResult.Decode]

theorem any_true_of_find?_some (oid : ObjectID) (l : List Document) (d : Document)
    (h : l.find? (matchesID oid) = some d) : l.any (matchesID oid) = true := by
  rw [List.any_eq_true]
  exact ⟨d, List.mem_of_find?_eq_some h, List.find?_some h⟩

/-- Replacing the documents under a key by one under the same key: a lookup of
the key finds the replacement exactly when it found a document before. -/
theorem find?_map_replace (oid : ObjectID) (new : Document) (hnew : matchesID oid new = true)
    (l : List Document) :
    (l.map fun d => if matchesID oid d then new else d).find? (matchesID oid)
      = (l.find? (matchesID oid)).map fun _ => new := by
  induction l with
  | nil => rfl
  | cons d rest ih =>
    by_cases hm : matchesID oid d = true
    · simp [List.find?_cons, hm, hnew]
    · simp only [Bool.not_eq_true] at hm
      simp only [List.map_cons, hm, List.find?_cons, Bool.false_eq_true, if_false]
      exact ih

/-- UpdatePokemon on a parsable identifier, with no storage error, when the
collection holds under the key a document that decodes. -/
theorem UpdatePokemon_found (c : Collection) (env : Env) (p : Option Pokemon) (oid : ObjectID)
    (d : Document) (data : pokemonItem)
    (hp : ObjectIDFromHex (GetId p) = some oid)
    (hf : env.findOneErr = none) (hr : env.replaceErr = none)
    (hd : c.docs.find? (matchesID oid) = some d) (hu : unmarshal d = .ok data) :
    ∃ c1 : Collection,
      UpdatePokemon c env ⟨p⟩ =
        (.ok ⟨⟨oid.Hex, GetPid p, GetName p, GetPower p, GetDescription p⟩⟩, c1) ∧
      c1.docs = c.docs.map fun x =>
        if matchesID oid x then
          marshal (.objectID oid) ⟨oid, GetPid p, GetName p, GetPower p, GetDescription p⟩
        else x := by
  have hid : data.ID = oid := by
    have h1 := unmarshal_id hu
    have h2 := (matchesID_iff oid d).mp (List.find?_some hd)
    rw [h1] at h2
    injection h2
  subst hid
  have hany := any_true_of_find?_some _ _ _ hd
  have hkey : (marshalID
      { data with Pid := GetPid p, Name := GetName p, Power := GetPower p,
                  Description := GetDescription p }).getD (.objectID data.ID)
      = .objectID data.ID := by
    unfold marshalID
    split <;> rfl
  simp only [UpdatePokemon, hp, Collection.FindOne, hf, hd, SingleResult.Decode, hu,
    Collection.ReplaceOne, hr, hany, if_true, hkey, getPokemonData]
  exact ⟨_, rfl, rfl⟩

/-- DeletePokemon on a parsable identifier under which the collection holds
nothing, when the delete call reports no error. -/
theorem DeletePokemon_absent (c : Collection) (env : Env) (id : String) (oid : ObjectID)
    (hp : ObjectIDFromHex id = some oid) (hf : env.deleteErr = none)
    (hd : c.docs.find? (matchesID oid) = none) :
    DeletePokemon c env ⟨id⟩ = (.error .NotFound, c) := by
  have hany := any_false_of_find?_none _ _ hd
  simp only [DeletePokemon, hp, Collection.DeleteOne, hf, hany, Bool.false_eq_true, if_false,
    if_true, Prod.mk.injEq, true_and]
  exact Collection.eq_of_docs (eraseP_of_find?_none _ _ hd)

/-- DeletePokemon whose delete call reports an error: Internal, nothing
removed. -/
theorem DeletePokemon_fault (c : Collection) (env : Env) (id : String) (oid : ObjectID)
    (e : DriverError) (hp : ObjectIDFromHex id = some oid) (hf : env.deleteErr = some e) :
    DeletePokemon c env ⟨id⟩ = (.error .Internal, c) := by
  simp only [DeletePokemon, hp, Collection.DeleteOne, hf]

/-- DeletePokemon returns a response only when the identifier parses, the call
reports no error and a document was under the key; the first such document is
the one removed. -/
theorem DeletePokemon_ok_inv (c c1 : Collection) (env : Env) (id : String)
    (r : DeletePokemonResponse) (h : DeletePokemon c env ⟨id⟩ = (.ok r, c1)) :
    ∃ oid, ObjectIDFromHex id = some oid ∧ env.deleteErr = none ∧
      c.docs.any (matchesID oid) = true ∧ c1.docs = c.docs.eraseP (matchesID oid) ∧
      r = ⟨id⟩ := by
  cases hp : ObjectIDFromHex id with
  | none => simp [DeletePokemon, hp] at h
  | some oid =>
    cases hf : env.deleteErr with
    | some e => rw [DeletePokemon_fault c env id oid e hp hf] at h; simp at h
    | none =>
      cases hany : c.docs.any (matchesID oid) with
      | false =>
        simp [DeletePokemon, hp, Collection.DeleteOne, hf, hany] at h
      | true =>
        simp only [DeletePokemon, hp, Collection.DeleteOne, hf, hany, if_true, one_ne_zero,
          if_false, Prod.mk.injEq, Except.ok.injEq] at h
        obtain ⟨h1, h2⟩ := h
        subst h2
        exact ⟨oid, rfl, rfl, hany, rfl, h1.symm⟩

/-! ## The loop of ListPokemon -/

theorem listLoop_nil (cur : Cursor) (s : ListPokemonServer) (h : cur.batch = []) :
    listLoop cur s = (none, cur, s) := by
  rw [listLoop]
  have hn : cur.Next = (false, cur) := by simp only [Cursor.Next, h]
  split
  · rename_i c1 heq
    rw [hn] at heq
    simp only [Prod.mk.injEq, true_and] at heq
    subst heq
    rfl
  · rename_i c1 heq
    rw [hn] at heq
    simp at heq

theorem listLoop_cons (cur : Cursor) (s : ListPokemonServer) (d : Document)
    (rest : List Document) (h : cur.batch = d :: rest) :
    listLoop cur s =
      match unmarshal d with
      | .error _ => (some .Internal, { cur with batch := rest, Current := some d }, s)
      | .ok data =>
        listLoop { cur with batch := rest, Current := some d }
          (s.Send ⟨getPokemonData data⟩).2 := by
  rw [listLoop]
  have hn : cur.Next = (true, { cur with batch := rest, Current := some d }) := by
    simp only [Cursor.Next, h]
  split
  · rename_i c1 heq
    rw [hn] at heq
    simp at heq
  · rename_i c1 heq
    rw [hn] at heq
    simp only [Prod.mk.injEq, true_and] at heq
    subst heq
    simp only [Cursor.Decode]


/-- The loop over a batch whose documents all decode: it ends by `Next`, having
handed one message per document to `Send`, in order, whatever `Send` reports. -/
theorem listLoop_all_ok (batch : List Document) :
    ∀ (cur : Cursor) (s : ListPokemonServer), cur.batch = batch →
      (∀ d ∈ batch, ∃ data, unmarshal d = .ok data) →
      ∃ (msgs : List ListPokemonResponse) (cur1 : Cursor) (s1 : ListPokemonServer),
        listLoop cur s = (none, cur1, s1) ∧ s1.sent = s.sent ++ msgs ∧
        List.Forall₂ sentFor batch msgs ∧ s1.fails = s.fails ∧
        cur1.batch = [] ∧ cur1.err = cur.err ∧
        ((∀ i, s.fails i = false) → s1.delivered = s.delivered ++ msgs) := by
  induction batch with
  | nil =>
    intro cur s hb _
    exact ⟨[], cur, s, listLoop_nil cur s hb, by simp, List.Forall₂.nil, rfl, hb, rfl,
      fun _ => by simp⟩
  | cons d rest ih =>
    intro cur s hb hok
    obtain ⟨data, hdata⟩ := hok d (List.mem_cons_self _ _)
    obtain ⟨msgs, cur1, s1, hl, hs, hf2, hfails, hb1, he1, hdel⟩ :=
      ih { cur with batch := rest, Current := some d } (s.Send ⟨getPokemonData data⟩).2 rfl
        (fun x hx => hok x (List.mem_cons_of_mem _ hx))
    refine ⟨⟨getPokemonData data⟩ :: msgs, cur1, s1, ?_, ?_, ?_, ?_, hb1, he1, ?_⟩
    · rw [listLoop_cons cur s d rest hb, hdata]
      exact hl
    · rw [hs]
      unfold ListPokemonServer.Send
      split <;> simp
    · exact List.Forall₂.cons ⟨data, hdata, rfl⟩ hf2
    · rw [hfails]
      unfold ListPokemonServer.Send
      split <;> rfl
    · intro hno
      have hsend : (s.Send ⟨getPokemonData data⟩).2 =
          { s with sent := s.sent ++ [⟨getPokemonData data⟩],
                   delivered := s.delivered ++ [⟨getPokemonData data⟩] } := by
        simp only [ListPokemonServer.Send, hno, Bool.false_eq_true, if_false]
      rw [hdel (by rw [hsend]; exact hno), hsend]
      simp

/-- The loop over a batch whose first document that does not decode stands after
`pre`: it returns Internal from the body, having handed to `Send` the messages
of `pre` and nothing else, and the documents after the bad one are not fetched. -/
theorem listLoop_first_bad (pre : List Document) (bad : Document) (post : List Document)
    (e : DriverError) (hbad : unmarshal bad = .error e) :
    ∀ (cur : Cursor) (s : ListPokemonServer), cur.batch = pre ++ bad :: post →
      (∀ d ∈ pre, ∃ data, unmarshal d = .ok data) →
      ∃ (msgs : List ListPokemonResponse) (cur1 : Cursor) (s1 : ListPokemonServer),
        listLoop cur s = (some .Internal, cur1, s1) ∧ s1.sent = s.sent ++ msgs ∧
        List.Forall₂ sentFor pre msgs ∧ cur1.batch = post := by
  induction pre with
  | nil =>
    intro cur s hb _
    refine ⟨[], { cur with batch := post, Current := some bad }, s, ?_, by simp,
      List.Forall₂.nil, rfl⟩
    rw [listLoop_cons cur s bad post hb, hbad]
  | cons d rest ih =>
    intro cur s hb hok
    obtain ⟨data, hdata⟩ := hok d (List.mem_cons_self _ _)
    obtain ⟨msgs, cur1, s1, hl, hs, hf2, hb1⟩ :=
      ih { cur with batch := rest ++ bad :: post, Current := some d }
        (s.Send ⟨getPokemonData data⟩).2 rfl
        (fun x hx => hok x (List.mem_cons_of_mem _ hx))
    refine ⟨⟨getPokemonData data⟩ :: msgs, cur1, s1, ?_, ?_, ?_, hb1⟩
    · rw [listLoop_cons cur s d (rest ++ bad :: post) hb, hdata]
      exact hl
    · rw [hs]
      unfold ListPokemonServer.Send
      split <;> simp
    · exact List.Forall₂.cons ⟨data, hdata, rfl⟩ hf2

/-- A message made by `getPokemonData` from a decoded document carries the
stored key and strings of that document. -/
theorem carries_of_sentFor {d : Document} {m : ListPokemonResponse} (h : sentFor d m) :
    carries d m := by
  obtain ⟨data, hdata, rfl⟩ := h
  unfold unmarshal at hdata
  split at hdata
  · rename_i o p n w ds h1 h2 h3 h4 h5
    simp only [Except.ok.injEq] at hdata
    subst hdata
    exact ⟨o, h1, rfl, h2, h3, h4, h5⟩
  · simp at hdata

theorem carries_unique : Relator.RightUnique carries := by
  intro d m1 m2 h1 h2
  obtain ⟨o1, a1, a2, a3, a4, a5, a6⟩ := h1
  obtain ⟨o2, b1, b2, b3, b4, b5, b6⟩ := h2
  obtain ⟨⟨i1, p1, n1, w1, s1⟩⟩ := m1
  obtain ⟨⟨i2, p2, n2, w2, s2⟩⟩ := m2
  simp only at a2 a3 a4 a5 a6 b2 b3 b4 b5 b6
  rw [a1] at b1
  rw [a3] at b3
  rw [a4] at b4
  rw [a5] at b5
  rw [a6] at b6
  injection b1 with e1
  injection b3 with e3
  injection b4 with e4
  injection b5 with e5
  injection b6 with e6
  subst e1 e3 e4 e5 e6
  rw [a2, b2]

theorem sentFor_unique : Relator.RightUnique sentFor := by
  intro d m1 m2 h1 h2
  obtain ⟨x, hx, rfl⟩ := h1
  obtain ⟨y, hy, rfl⟩ := h2
  rw [hx] at hy
  injection hy with hxy
  rw [hxy]

/-- ListPokemon when the scan opens and ends without error and every document
decodes. -/
theorem ListPokemon_all_ok (c : Collection) (env : Env) (req : ListPokemonRequest)
    (stream : ListPokemonServer)
    (hfind : env.findErr = none) (hscan : env.cursorErr = none)
    (hdec : ∀ d ∈ c.docs, ∃ data, unmarshal d = .ok data) :
    ∃ msgs : List ListPokemonResponse,
      (ListPokemon c env req stream).err = none ∧
      (ListPokemon c env req stream).stream.sent = stream.sent ++ msgs ∧
      List.Forall₂ sentFor c.docs msgs ∧
      ((∀ i, stream.fails i = false) →
        (ListPokemon c env req stream).stream.delivered = stream.delivered ++ msgs) ∧
      (ListPokemon c env req stream).cur.map Cursor.closed = some true := by
  obtain ⟨msgs, cur1, s1, hl, hs, hf2, _, _, he1, hdel⟩ :=
    listLoop_all_ok c.docs ⟨c.docs, none, none, false⟩ stream rfl hdec
  have herr : cur1.Err = none := he1
  refine ⟨msgs, ?_, ?_, hf2, ?_, ?_⟩ <;>
    simp only [ListPokemon, Collection.Find, hfind, hscan, hl, herr]
  · exact hs
  · exact hdel
  · rfl

/-- ListPokemon when the cursor opens and the first document of its scan that
does not decode stands after `pre`. -/
theorem ListPokemon_first_bad (c : Collection) (env : Env)
    (req : ListPokemonRequest) (stream : ListPokemonServer) (cur : Cursor)
    (pre : List Document) (bad : Document) (post : List Document) (e : DriverError)
    (hfind : c.Find env.findErr env.cursorErr = .ok cur)
    (hscan : cur.batch = pre ++ bad :: post)
    (hpre : ∀ d ∈ pre, ∃ data, unmarshal d = .ok data)
    (hbad : unmarshal bad = .error e) :
    (ListPokemon c env req stream).err = some .Internal ∧
    (∃ msgs : List ListPokemonResponse,
      (ListPokemon c env req stream).stream.sent = stream.sent ++ msgs ∧
      List.Forall₂ sentFor pre msgs ∧ msgs.length = pre.length) ∧
    ∃ cur1 : Cursor, (ListPokemon c env req stream).cur = some cur1 ∧
      cur1.closed = true ∧ cur1.batch = post := by
  obtain ⟨msgs, cur1, s1, hl, hs, hf2, hb1⟩ :=
    listLoop_first_bad pre bad post e hbad cur stream hscan hpre
  refine ⟨?_, ⟨msgs, ?_, hf2, hf2.length_eq.symm⟩, ⟨cur1.Close, ?_, rfl, hb1⟩⟩ <;>
    simp only [ListPokemon, hfind, hl]
  exact hs

/-! ## Claims -/

/-- C1: a request whose identifier is not a string of 24 hexadecimal digits (so
does not parse as a storage key) makes ReadPokemon, UpdatePokemon and
DeletePokemon fail with InvalidArgument, for every collection and every
behaviour of the driver, and the collection is returned as it was. -/
theorem malformed_id_invalid_argument (c : Collection) (env : Env) (id : String)
    (h : ¬ (id.length = 24 ∧ ∀ ch ∈ id.data, hexDigit ch)) :
    ReadPokemon c env ⟨id⟩ = (.error .InvalidArgument, c) ∧
    (∀ req : UpdatePokemonRequest, GetId req.Pokemon = id →
      UpdatePokemon c env req = (.error .InvalidArgument, c)) ∧
    DeletePokemon c env ⟨id⟩ = (.error .InvalidArgument, c) := by
  have hp : ObjectIDFromHex id = none := by
    cases hq : ObjectIDFromHex id with
    | none => rfl
    | some o => exact (h ((ObjectIDFromHex_isSome_iff id).mp (by rw [hq]; rfl))).elim
  refine ⟨?_, ?_, ?_⟩
  · simp only [ReadPokemon, hp]
  · intro req hreq
    simp only [UpdatePokemon, hreq, hp]
  · simp only [DeletePokemon, hp]

/-- Witness of C1: the identifier "Poke01" against a collection that holds a
record whose external code is that very string. -/
theorem malformed_id_invalid_argument_witness :
    ¬ ("Poke01".length = 24 ∧ ∀ ch ∈ "Poke01".data, hexDigit ch) ∧
    ReadPokemon pikachuStore (Env.healthy keyB) ⟨"Poke01"⟩
      = (.error .InvalidArgument, pikachuStore) ∧
    (∀ req : UpdatePokemonRequest, GetId req.Pokemon = "Poke01" →
      UpdatePokemon pikachuStore (Env.healthy keyB) req
        = (.error .InvalidArgument, pikachuStore)) ∧
    DeletePokemon pikachuStore (Env.healthy keyB) ⟨"Poke01"⟩
      = (.error .InvalidArgument, pikachuStore) :=
  ⟨by decide, malformed_id_invalid_argument pikachuStore (Env.healthy keyB) "Poke01" (by decide)⟩


/-- C2 (amended): when CreatePokemon returns a record, a ReadPokemon of the
returned identifier on the resulting collection, whose lookup reports no storage
error, returns the very record Create returned: the code, name, power and
description of the input and the identifier Create assigned. -/
theorem read_after_create (c c1 : Collection) (env env1 : Env) (req : CreatePokemonRequest)
    (created : Pokemon)
    (hc : CreatePokemon c env req = (.ok ⟨created⟩, c1))
    (hf : env1.findOneErr = none) :
    ReadPokemon c1 env1 ⟨created.Id⟩ = (.ok ⟨created⟩, c1) ∧
    created.Pid = GetPid req.Pokemon ∧ created.Name = GetName req.Pokemon ∧
    created.Power = GetPower req.Pokemon ∧
    created.Description = GetDescription req.Pokemon := by
  obtain ⟨_, hnew, hcr, hdocs⟩ := CreatePokemon_ok_inv c c1 env req created hc
  subst hcr
  refine ⟨?_, rfl, rfl, rfl, rfl⟩
  have hfind : c1.docs.find? (matchesID env.NewObjectID) =
      some (marshal (.objectID env.NewObjectID)
        ⟨NilObjectID, GetPid req.Pokemon, GetName req.Pokemon, GetPower req.Pokemon,
          GetDescription req.Pokemon⟩) := by
    rw [hdocs, List.find?_append, find?_none_of_not_mem _ _ hnew]
    simp [matchesID, marshal]
  exact ReadPokemon_found c1 env1 _ env.NewObjectID _ _ (ObjectIDFromHex_Hex _) hf hfind
    (unmarshal_marshal _ _)

/-- Witness of C2 (amended): the client scenario on the empty collection. -/
theorem read_after_create_witness :
    CreatePokemon emptyStore (Env.healthy keyA) ⟨some pikachu⟩
      = (.ok ⟨{ pikachu with Id := keyA.Hex }⟩, pikachuStore) ∧
    (Env.healthy keyB).findOneErr = none ∧
    ReadPokemon pikachuStore (Env.healthy keyB) ⟨keyA.Hex⟩
      = (.ok ⟨{ pikachu with Id := keyA.Hex }⟩, pikachuStore) :=
  ⟨rfl, rfl,
    (read_after_create emptyStore pikachuStore (Env.healthy keyA) (Env.healthy keyB)
      ⟨some pikachu⟩ { pikachu with Id := keyA.Hex } rfl rfl).1⟩

/-- C2 as stated fails: Create succeeds on the empty collection, and the
ReadPokemon of the returned identifier, issued while the lookup reports the
server unavailable, returns NotFound instead of the record. -/
theorem read_after_create_counterexample :
    (CreatePokemon emptyStore (Env.healthy keyA) ⟨some pikachu⟩).1
      = .ok ⟨{ pikachu with Id := keyA.Hex }⟩ ∧
    (ReadPokemon (CreatePokemon emptyStore (Env.healthy keyA) ⟨some pikachu⟩).2
      (Env.down keyB) ⟨keyA.Hex⟩).1 = .error .NotFound :=
  ⟨rfl, rfl⟩


/-- C3 (amended): when the collection holds under the key of `u.Id` a document
that decodes, and neither the lookup nor the replace reports a storage error,
UpdatePokemon returns the record made of u's code, name, power and description
and the identifier the stored record had; the stored document is the encoding
of exactly those values (nothing of the old record is kept), and a following
ReadPokemon whose lookup reports no error returns the same record. -/
theorem read_after_update (c : Collection) (env env1 : Env) (u : Pokemon) (oid : ObjectID)
    (d : Document) (old : pokemonItem)
    (hp : ObjectIDFromHex u.Id = some oid)
    (hd : c.docs.find? (matchesID oid) = some d) (hu : unmarshal d = .ok old)
    (hf : env.findOneErr = none) (hr : env.replaceErr = none)
    (hf1 : env1.findOneErr = none) :
    ∃ c1 : Collection,
      UpdatePokemon c env ⟨some u⟩ =
        (.ok ⟨⟨(getPokemonData old).Id, u.Pid, u.Name, u.Power, u.Description⟩⟩, c1) ∧
      c1.docs.find? (matchesID oid) =
        some (marshal (.objectID oid) ⟨oid, u.Pid, u.Name, u.Power, u.Description⟩) ∧
      ReadPokemon c1 env1 ⟨u.Id⟩ =
        (.ok ⟨⟨(getPokemonData old).Id, u.Pid, u.Name, u.Power, u.Description⟩⟩, c1) := by
  have hid : old.ID = oid := by
    have h1 := unmarshal_id hu
    have h2 := (matchesID_iff oid d).mp (List.find?_some hd)
    rw [h1] at h2
    injection h2
  obtain ⟨c1, h1, h2⟩ := UpdatePokemon_found c env (some u) oid d old hp hf hr hd hu
  have hfind : c1.docs.find? (matchesID oid) =
      some (marshal (.objectID oid) ⟨oid, u.Pid, u.Name, u.Power, u.Description⟩) := by
    rw [h2]
    have := find?_map_replace oid
      (marshal (.objectID oid) ⟨oid, u.Pid, u.Name, u.Power, u.Description⟩)
      (by simp [matchesID, marshal]) c.docs
    simp only [GetPid, GetName, GetPower, GetDescription, Option.map_some', Option.getD_some]
    rw [this, hd]
    rfl
  refine ⟨c1, ?_, hfind, ?_⟩
  · rw [h1]
    simp only [getPokemonData, hid, GetPid, GetName, GetPower, GetDescription, Option.map_some',
      Option.getD_some]
  · have := ReadPokemon_found c1 env1 u.Id oid _ _ hp hf1 hfind (unmarshal_marshal _ _)
    rw [this]
    simp only [getPokemonData, hid]

/-- Witness of C3 (amended): the update of the client scenario. -/
theorem read_after_update_witness :
    ObjectIDFromHex keyA.Hex = some keyA ∧
    pikachuStore.docs.find? (matchesID keyA) = some pikachuDoc ∧
    unmarshal pikachuDoc = .ok ⟨keyA, "Poke01", "Pikachu", "Fire", "Fluffy"⟩ ∧
    ∃ c1 : Collection,
      UpdatePokemon pikachuStore (Env.healthy keyB)
          ⟨some ⟨keyA.Hex, "Poke01", "Pikachu", "Fire Fire Fire", "Fluffy"⟩⟩ =
        (.ok ⟨⟨keyA.Hex, "Poke01", "Pikachu", "Fire Fire Fire", "Fluffy"⟩⟩, c1) ∧
      c1.docs.find? (matchesID keyA) =
        some (marshal (.objectID keyA) ⟨keyA, "Poke01", "Pikachu", "Fire Fire Fire", "Fluffy"⟩) ∧
      ReadPokemon c1 (Env.healthy keyB) ⟨keyA.Hex⟩ =
        (.ok ⟨⟨keyA.Hex, "Poke01", "Pikachu", "Fire Fire Fire", "Fluffy"⟩⟩, c1) :=
  ⟨rfl, rfl, rfl,
    read_after_update pikachuStore (Env.healthy keyB) (Env.healthy keyB)
      ⟨keyA.Hex, "Poke01", "Pikachu", "Fire Fire Fire", "Fluffy"⟩ keyA pikachuDoc
      ⟨keyA, "Poke01", "Pikachu", "Fire", "Fluffy"⟩ rfl rfl rfl rfl rfl rfl⟩

/-- C3 as stated fails: the collection holds the scenario record under the
identifier, the replace call reports the server unavailable, and UpdatePokemon
returns Internal and leaves the record as it was. -/
theorem read_after_update_counterexample :
    (ReadPokemon pikachuStore (Env.healthy keyB) ⟨keyA.Hex⟩).1
      = .ok ⟨{ pikachu with Id := keyA.Hex }⟩ ∧
    (UpdatePokemon pikachuStore { Env.healthy keyB with replaceErr := some .Unavailable }
      ⟨some ⟨keyA.Hex, "Poke01", "Pikachu", "Fire Fire Fire", "Fluffy"⟩⟩).1
      = .error .Internal ∧
    (UpdatePokemon pikachuStore { Env.healthy keyB with replaceErr := some .Unavailable }
      ⟨some ⟨keyA.Hex, "Poke01", "Pikachu", "Fire Fire Fire", "Fluffy"⟩⟩).2.docs
      = [pikachuDoc] :=
  ⟨rfl, rfl, rfl⟩

/-- C4 (amended): when DeletePokemon of an identifier succeeds, then on the
resulting collection ReadPokemon of that identifier fails with NotFound whatever
the lookup reports, and a second DeletePokemon fails with NotFound when its
delete call reports no storage error (with Internal when it reports one); the
collection is not changed again. -/
theorem not_found_after_delete (c c1 : Collection) (env : Env) (id : String)
    (r : DeletePokemonResponse) (hdel : DeletePokemon c env ⟨id⟩ = (.ok r, c1)) :
    (∀ env1 : Env, ReadPokemon c1 env1 ⟨id⟩ = (.error .NotFound, c1)) ∧
    (∀ env1 : Env, env1.deleteErr = none →
      DeletePokemon c1 env1 ⟨id⟩ = (.error .NotFound, c1)) ∧
    (∀ env1 : Env, env1.deleteErr ≠ none →
      DeletePokemon c1 env1 ⟨id⟩ = (.error .Internal, c1)) := by
  obtain ⟨oid, hp, _, _, hdocs, _⟩ := DeletePokemon_ok_inv c c1 env id r hdel
  have hgone : c1.docs.find? (matchesID oid) = none := by
    rw [hdocs]
    exact find?_eraseP_none oid c.docs c.unique
  refine ⟨?_, ?_, ?_⟩
  · intro env1
    exact ReadPokemon_absent c1 env1 id oid hp hgone
  · intro env1 hf
    exact DeletePokemon_absent c1 env1 id oid hp hf hgone
  · intro env1 hf
    cases he : env1.deleteErr with
    | none => exact (hf he).elim
    | some e => exact DeletePokemon_fault c1 env1 id oid e hp he

/-- Witness of C4 (amended): deleting the scenario record. -/
theorem not_found_after_delete_witness :
    DeletePokemon pikachuStore (Env.healthy keyB) ⟨keyA.Hex⟩ = (.ok ⟨keyA.Hex⟩, emptyStore) ∧
    (∀ env1 : Env, ReadPokemon emptyStore env1 ⟨keyA.Hex⟩ = (.error .NotFound, emptyStore)) ∧
    (∀ env1 : Env, env1.deleteErr = none →
      DeletePokemon emptyStore env1 ⟨keyA.Hex⟩ = (.error .NotFound, emptyStore)) ∧
    (∀ env1 : Env, env1.deleteErr ≠ none →
      DeletePokemon emptyStore env1 ⟨keyA.Hex⟩ = (.error .Internal, emptyStore)) :=
  ⟨rfl, not_found_after_delete pikachuStore emptyStore (Env.healthy keyB) keyA.Hex ⟨keyA.Hex⟩ rfl⟩

/-- C4 as stated fails: after the scenario record is deleted, a second
DeletePokemon whose delete call reports the server unavailable returns
Internal, not NotFound. -/
theorem not_found_after_delete_counterexample :
    (DeletePokemon pikachuStore (Env.healthy keyB) ⟨keyA.Hex⟩).1 = .ok ⟨keyA.Hex⟩ ∧
    (DeletePokemon (DeletePokemon pikachuStore (Env.healthy keyB) ⟨keyA.Hex⟩).2
      (Env.down keyB) ⟨keyA.Hex⟩).1 = .error .Internal :=
  ⟨rfl, rfl⟩

/-- C5: for a well-formed identifier (one that parses as a storage key) under
which the collection holds no document, ReadPokemon fails with NotFound
whatever the lookup reports, DeletePokemon fails with NotFound when its delete
call reports no error, and both return the collection as it was. -/
theorem absent_id_not_found (c : Collection) (env : Env) (id : String) (oid : ObjectID)
    (hp : ObjectIDFromHex id = some oid)
    (habs : ∀ d ∈ c.docs, d.id ≠ .objectID oid) :
    ReadPokemon c env ⟨id⟩ = (.error .NotFound, c) ∧
    (env.deleteErr = none → DeletePokemon c env ⟨id⟩ = (.error .NotFound, c)) := by
  have hnone : c.docs.find? (matchesID oid) = none := by
    apply find?_none_of_not_mem
    intro hmem
    obtain ⟨d, hd, hid⟩ := List.mem_map.mp hmem
    exact habs d hd hid
  exact ⟨ReadPokemon_absent c env id oid hp hnone,
    fun hf => DeletePokemon_absent c env id oid hp hf hnone⟩

/-- Witness of C5: the key `keyB` against the collection that holds only the
scenario record under `keyA`. -/
theorem absent_id_not_found_witness :
    ObjectIDFromHex keyB.Hex = some keyB ∧
    (∀ d ∈ pikachuStore.docs, d.id ≠ .objectID keyB) ∧
    ReadPokemon pikachuStore (Env.healthy keyA) ⟨keyB.Hex⟩ = (.error .NotFound, pikachuStore) ∧
    ((Env.healthy keyA).deleteErr = none →
      DeletePokemon pikachuStore (Env.healthy keyA) ⟨keyB.Hex⟩
        = (.error .NotFound, pikachuStore)) :=
  ⟨rfl, by decide,
    absent_id_not_found pikachuStore (Env.healthy keyA) keyB.Hex keyB rfl (by decide)⟩


/-- C6: when the scan opens and ends without error and every stored document
decodes, ListPokemon returns the nil error and hands to the stream, in storage
order, exactly one message per stored document (so nothing added, dropped or
duplicated): the document converted by getPokemonData, which carries the
document's stored key in hexadecimal and its four stored strings; these all
reach the caller when no send fails; the empty collection gives no message and
no error. -/
theorem list_sends_every_record (c : Collection) (env : Env) (req : ListPokemonRequest)
    (stream : ListPokemonServer)
    (hfind : env.findErr = none) (hscan : env.cursorErr = none)
    (hdec : ∀ d ∈ c.docs, ∃ data, unmarshal d = .ok data) :
    (ListPokemon c env req stream).err = none ∧
    ∃ msgs : List ListPokemonResponse,
      (ListPokemon c env req stream).stream.sent = stream.sent ++ msgs ∧
      List.Forall₂ sentFor c.docs msgs ∧
      List.Forall₂ carries c.docs msgs ∧
      msgs.length = c.docs.length ∧
      (c.docs = [] → msgs = []) ∧
      ((∀ i, stream.fails i = false) →
        (ListPokemon c env req stream).stream.delivered = stream.delivered ++ msgs) := by
  obtain ⟨msgs, h1, h2, h3, h4, _⟩ := ListPokemon_all_ok c env req stream hfind hscan hdec
  refine ⟨h1, msgs, h2, h3, h3.imp fun _ _ h => carries_of_sentFor h, h3.length_eq.symm, ?_, h4⟩
  intro hnil
  rw [hnil] at h3
  exact List.forall₂_nil_left_iff.mp h3

/-- Witness of C6: a collection of two well-formed documents; the two messages
sent are the two stored records, in storage order. -/
theorem list_sends_every_record_witness :
    (Env.healthy keyA).findErr = none ∧ (Env.healthy keyA).cursorErr = none ∧
    (∀ d ∈ pairStore.docs, ∃ data, unmarshal d = .ok data) ∧
    ((ListPokemon pairStore (Env.healthy keyA) ⟨⟩ (.new fun _ => false)).err = none ∧
    ∃ msgs : List ListPokemonResponse,
      (ListPokemon pairStore (Env.healthy keyA) ⟨⟩ (.new fun _ => false)).stream.sent
        = (ListPokemonServer.new fun _ => false).sent ++ msgs ∧
      List.Forall₂ sentFor pairStore.docs msgs ∧
      List.Forall₂ carries pairStore.docs msgs ∧
      msgs.length = pairStore.docs.length ∧
      (pairStore.docs = [] → msgs = []) ∧
      ((∀ i, (ListPokemonServer.new fun _ => false).fails i = false) →
        (ListPokemon pairStore (Env.healthy keyA) ⟨⟩ (.new fun _ => false)).stream.delivered
          = (ListPokemonServer.new fun _ => false).delivered ++ msgs)) ∧
    (ListPokemon pairStore (Env.healthy keyA) ⟨⟩ (.new fun _ => false)).stream.sent
      = [⟨⟨keyA.Hex, "Poke01", "Pikachu", "Fire", "Fluffy"⟩⟩,
         ⟨⟨keyC.Hex, "Poke04", "Charmander", "Blaze", "Orange"⟩⟩] := by
  have hdec : ∀ d ∈ pairStore.docs, ∃ data, unmarshal d = .ok data := by
    intro d hd
    simp only [pairStore, List.mem_cons, List.mem_singleton, List.not_mem_nil, or_false] at hd
    rcases hd with hd | hd <;> subst hd <;> exact ⟨_, rfl⟩
  have h := list_sends_every_record pairStore (Env.healthy keyA) ⟨⟩ (.new fun _ => false)
    rfl rfl hdec
  refine ⟨rfl, rfl, hdec, h, ?_⟩
  obtain ⟨_, msgs, hsent, _, hcar, _⟩ := h
  have hexp : List.Forall₂ carries pairStore.docs
      [⟨⟨keyA.Hex, "Poke01", "Pikachu", "Fire", "Fluffy"⟩⟩,
       ⟨⟨keyC.Hex, "Poke04", "Charmander", "Blaze", "Orange"⟩⟩] :=
    List.Forall₂.cons ⟨keyA, rfl, rfl, rfl, rfl, rfl, rfl⟩
      (List.Forall₂.cons ⟨keyC, rfl, rfl, rfl, rfl, rfl, rfl⟩ List.Forall₂.nil)
  rw [hsent, carries_unique.forall₂ hcar hexp]
  rfl

/-- C9: when the cursor opens and the first document of its scan that does not
decode stands at position k (after the k documents `pre`), ListPokemon hands to
the stream the k messages of `pre` in scan order, each carrying the stored key
and strings of its document, and nothing else; it returns Internal and leaves
the cursor closed, with the documents after position k never fetched. -/
theorem list_aborts_at_first_bad_record (c : Collection) (env : Env)
    (req : ListPokemonRequest) (stream : ListPokemonServer) (cur : Cursor)
    (pre : List Document) (bad : Document) (post : List Document) (e : DriverError)
    (hfind : c.Find env.findErr env.cursorErr = .ok cur)
    (hscan : cur.batch = pre ++ bad :: post)
    (hpre : ∀ d ∈ pre, ∃ data, unmarshal d = .ok data)
    (hbad : unmarshal bad = .error e) :
    (ListPokemon c env req stream).err = some .Internal ∧
    (∃ msgs : List ListPokemonResponse,
      (ListPokemon c env req stream).stream.sent = stream.sent ++ msgs ∧
      List.Forall₂ sentFor pre msgs ∧ List.Forall₂ carries pre msgs ∧
      msgs.length = pre.length) ∧
    ∃ cur1 : Cursor, (ListPokemon c env req stream).cur = some cur1 ∧
      cur1.closed = true ∧ cur1.batch = post := by
  obtain ⟨h1, ⟨msgs, h2, h3, h4⟩, h5⟩ :=
    ListPokemon_first_bad c env req stream cur pre bad post e hfind hscan hpre hbad
  exact ⟨h1, ⟨msgs, h2, h3, h3.imp fun _ _ h => carries_of_sentFor h, h4⟩, h5⟩

/-- Witness of C9: the scan of a collection whose second document (position 1)
holds a number under `pid`, which the driver does not decode into a string, and
whose third document is well formed: the one message sent is the first
record. -/
theorem list_aborts_at_first_bad_record_witness :
    mixedStore.Find (Env.healthy keyA).findErr (Env.healthy keyA).cursorErr
      = .ok ⟨mixedStore.docs, none, none, false⟩ ∧
    mixedStore.docs = [pikachuDoc] ++ brokenDoc :: [charmanderDoc] ∧
    (∀ d ∈ [pikachuDoc], ∃ data, unmarshal d = .ok data) ∧
    unmarshal brokenDoc = .error .DecodeError ∧
    ((ListPokemon mixedStore (Env.healthy keyA) ⟨⟩ (.new fun _ => false)).err
      = some .Internal ∧
    (∃ msgs : List ListPokemonResponse,
      (ListPokemon mixedStore (Env.healthy keyA) ⟨⟩ (.new fun _ => false)).stream.sent
        = (ListPokemonServer.new fun _ => false).sent ++ msgs ∧
      List.Forall₂ sentFor [pikachuDoc] msgs ∧ List.Forall₂ carries [pikachuDoc] msgs ∧
      msgs.length = [pikachuDoc].length) ∧
    ∃ cur1 : Cursor,
      (ListPokemon mixedStore (Env.healthy keyA) ⟨⟩ (.new fun _ => false)).cur = some cur1 ∧
      cur1.closed = true ∧ cur1.batch = [charmanderDoc]) ∧
    (ListPokemon mixedStore (Env.healthy keyA) ⟨⟩ (.new fun _ => false)).stream.sent
      = [⟨⟨keyA.Hex, "Poke01", "Pikachu", "Fire", "Fluffy"⟩⟩] := by
  have hpre : ∀ d ∈ [pikachuDoc], ∃ data, unmarshal d = .ok data := by
    intro d hd
    simp only [List.mem_singleton] at hd
    subst hd
    exact ⟨_, rfl⟩
  have h := list_aborts_at_first_bad_record mixedStore (Env.healthy keyA) ⟨⟩
    (.new fun _ => false) ⟨mixedStore.docs, none, none, false⟩ [pikachuDoc] brokenDoc
    [charmanderDoc] .DecodeError rfl rfl hpre rfl
  refine ⟨rfl, rfl, hpre, rfl, h, ?_⟩
  obtain ⟨_, ⟨msgs, hsent, _, hcar, _⟩, _⟩ := h
  have hexp : List.Forall₂ carries [pikachuDoc]
      [⟨⟨keyA.Hex, "Poke01", "Pikachu", "Fire", "Fluffy"⟩⟩] :=
    List.Forall₂.cons ⟨keyA, rfl, rfl, rfl, rfl, rfl, rfl⟩ List.Forall₂.nil
  rw [hsent, carries_unique.forall₂ hcar hexp]
  rfl

/-- C10: when the scan opens and ends without error and every stored document
decodes, then for every pattern of send failures ListPokemon returns the nil
error and hands to the stream one message per stored document, the same
messages as when no send fails; in particular when every send fails. -/
theorem list_ignores_send_failures (c : Collection) (env : Env) (req : ListPokemonRequest)
    (fails : Nat → Bool)
    (hfind : env.findErr = none) (hscan : env.cursorErr = none)
    (hdec : ∀ d ∈ c.docs, ∃ data, unmarshal d = .ok data) :
    (ListPokemon c env req (.new fails)).err = none ∧
    List.Forall₂ sentFor c.docs (ListPokemon c env req (.new fails)).stream.sent ∧
    (ListPokemon c env req (.new fails)).stream.sent
      = (ListPokemon c env req (.new fun _ => false)).stream.sent ∧
    (ListPokemon c env req (.new fun _ => true)).err = none ∧
    (ListPokemon c env req (.new fun _ => true)).stream.sent
      = (ListPokemon c env req (.new fun _ => false)).stream.sent := by
  have key : ∀ f : Nat → Bool,
      (ListPokemon c env req (.new f)).err = none ∧
      List.Forall₂ sentFor c.docs (ListPokemon c env req (.new f)).stream.sent := by
    intro f
    obtain ⟨msgs, h1, h2, h3, _⟩ := ListPokemon_all_ok c env req (.new f) hfind hscan hdec
    refine ⟨h1, ?_⟩
    rw [h2]
    simpa [ListPokemonServer.new] using h3
  have same : ∀ f g : Nat → Bool,
      (ListPokemon c env req (.new f)).stream.sent
        = (ListPokemon c env req (.new g)).stream.sent :=
    fun f g => sentFor_unique.forall₂ (key f).2 (key g).2
  exact ⟨(key fails).1, (key fails).2, same _ _, (key _).1, same _ _⟩

/-- Witness of C10: two well-formed documents and a caller that went away before
the first send. -/
theorem list_ignores_send_failures_witness :
    (Env.healthy keyA).findErr = none ∧ (Env.healthy keyA).cursorErr = none ∧
    (∀ d ∈ pairStore.docs, ∃ data, unmarshal d = .ok data) ∧
    (ListPokemon pairStore (Env.healthy keyA) ⟨⟩ (.new fun _ => true)).err = none ∧
    List.Forall₂ sentFor pairStore.docs
      (ListPokemon pairStore (Env.healthy keyA) ⟨⟩ (.new fun _ => true)).stream.sent :=
  have hdec : ∀ d ∈ pairStore.docs, ∃ data, unmarshal d = .ok data := by
    intro d hd
    simp only [pairStore, List.mem_cons, List.mem_singleton, List.not_mem_nil, or_false] at hd
    rcases hd with hd | hd <;> subst hd <;> exact ⟨_, rfl⟩
  have h := list_ignores_send_failures pairStore (Env.healthy keyA) ⟨⟩ (fun _ => true)
    rfl rfl hdec
  ⟨rfl, rfl, hdec, h.1, h.2.1⟩


/-- C8, the code at the failing inputs: a ReadPokemon and an UpdatePokemon of a
key under which the collection holds a document that does not decode return
NotFound, and so does a ReadPokemon or UpdatePokemon of a stored, well-formed
record whose lookup reports the server unavailable; ListPokemon on the same
collection reports the decode failure as Internal. -/
theorem lookup_failure_reported_as_not_found :
    mixedStore.docs.find? (matchesID keyB) = some brokenDoc ∧
    unmarshal brokenDoc = .error .DecodeError ∧
    (ReadPokemon mixedStore (Env.healthy keyA) ⟨keyB.Hex⟩).1 = .error .NotFound ∧
    (UpdatePokemon mixedStore (Env.healthy keyA)
      ⟨some ⟨keyB.Hex, "Poke02", "Eevee", "Adapt", "Brown"⟩⟩).1 = .error .NotFound ∧
    (ReadPokemon pikachuStore (Env.down keyB) ⟨keyA.Hex⟩).1 = .error .NotFound ∧
    (UpdatePokemon pikachuStore (Env.down keyB)
      ⟨some ⟨keyA.Hex, "Poke01", "Pikachu", "Fire Fire Fire", "Fluffy"⟩⟩).1
      = .error .NotFound ∧
    (ListPokemon mixedStore (Env.healthy keyA) ⟨⟩ (.new fun _ => false)).err
      = some .Internal := by
  have hpre : ∀ d ∈ [pikachuDoc], ∃ data, unmarshal d = .ok data := by
    intro d hd
    simp only [List.mem_singleton] at hd
    subst hd
    exact ⟨_, rfl⟩
  exact ⟨rfl, rfl, rfl, rfl, rfl, rfl,
    (ListPokemon_first_bad mixedStore (Env.healthy keyA) ⟨⟩ (.new fun _ => false)
      ⟨mixedStore.docs, none, none, false⟩ [pikachuDoc] brokenDoc [charmanderDoc] .DecodeError
      rfl rfl hpre rfl).1⟩

end PokemonService
